import Mathlib

/-
Verification of the canonical Airplane flight model
(src/src/ts/vehicles/Airplane.ts, the richer stall-aware version).

The embedding works over the real numbers. Vectors and quaternions follow
the CANNON library operations used by the code (Vec3.length, Vec3.normalize,
Vec3.negate, Vec3.scale, Quaternion.inverse, Quaternion.vmult).
-/

noncomputable section

structure Vec3 where
  x : ℝ
  y : ℝ
  z : ℝ

/- CANNON Vec3.length: Math.sqrt(x*x + y*y + z*z). -/
def Vec3.length (v : Vec3) : ℝ :=
  Real.sqrt (v.x * v.x + v.y * v.y + v.z * v.z)

/- CANNON Vec3.normalize: divide by the norm when it is positive, else zero. -/
def Vec3.normalize (v : Vec3) : Vec3 :=
  if v.length > 0 then ⟨v.x / v.length, v.y / v.length, v.z / v.length⟩
  else ⟨0, 0, 0⟩

def Vec3.negate (v : Vec3) : Vec3 := ⟨-v.x, -v.y, -v.z⟩

def Vec3.scale (v : Vec3) (s : ℝ) : Vec3 := ⟨v.x * s, v.y * s, v.z * s⟩

structure Quat where
  x : ℝ
  y : ℝ
  z : ℝ
  w : ℝ

/- CANNON Quaternion.inverse: conjugate scaled by the inverse squared norm. -/
def Quat.inverse (q : Quat) : Quat :=
  let inorm2 := 1 / (q.x * q.x + q.y * q.y + q.z * q.z + q.w * q.w)
  ⟨-q.x * inorm2, -q.y * inorm2, -q.z * inorm2, q.w * inorm2⟩

/- CANNON Quaternion.vmult: rotate a vector by the quaternion. -/
def Quat.vmult (q : Quat) (v : Vec3) : Vec3 :=
  let ix := q.w * v.x + q.y * v.z - q.z * v.y
  let iy := q.w * v.y + q.z * v.x - q.x * v.z
  let iz := q.w * v.z + q.x * v.y - q.y * v.x
  let iw := -q.x * v.x - q.y * v.y - q.z * v.z
  ⟨ix * q.w + iw * -q.x + iy * -q.z - iz * -q.y,
   iy * q.w + iw * -q.y + iz * -q.x - ix * -q.z,
   iz * q.w + iw * -q.z + ix * -q.y - iy * -q.x⟩

/- The boolean control actions read by the airplane (isPressed flags). -/
structure ActionsState where
  throttle : Bool
  brake : Bool
  wheelBrake : Bool
  pitchUp : Bool
  pitchDown : Bool
  yawLeft : Bool
  yawRight : Bool
  rollLeft : Bool
  rollRight : Bool

/- Constants of physicsPreStep. -/
def alphaMax : ℝ := 0.35
def wingS : ℝ := 0.7
def cL0 : ℝ := 0.5

/- dynamicPressure = squareSpeed * 1.225 * E^(-0.000141*height) * 0.5. -/
def dynamicPressure (squareSpeed height : ℝ) : ℝ :=
  squareSpeed * 1.225 * Real.exp (-0.000141 * height) * 0.5

/- beta = velocity.length() > 0.5 ? asin(velocity.x / velocity.length()) : 0. -/
def beta (velocity : Vec3) : ℝ :=
  if velocity.length > 0.5 then Real.arcsin (velocity.x / velocity.length) else 0

/- alpha = velocity.length() > 0.5
     ? -asin(velocity.y / (velocity.length() * cos(beta))) : 0. -/
def alpha (velocity : Vec3) : ℝ :=
  if velocity.length > 0.5 then
    -Real.arcsin (velocity.y / (velocity.length * Real.cos (beta velocity)))
  else 0

/- The piecewise lift coefficient: cL initialised to 0, then the three
   conditional branches of the source. -/
def cL (alpha : ℝ) : ℝ :=
  if |alpha| < alphaMax then 4.3 * alpha
  else if alpha ≤ -alphaMax ∧ -0.7 < alpha then -4.3 * alpha - 3.1
  else if alphaMax ≤ alpha ∧ alpha < 0.7 then -4.3 * alpha + 3.1
  else 0

/- dragCoef = |alpha| < pi/2 ? 0.35 + alpha*alpha
            : 0.35 + (|alpha| - pi/2)*(|alpha| - pi/2). -/
def dragCoef (alpha : ℝ) : ℝ :=
  if |alpha| < Real.pi * 0.5 then 0.35 + alpha * alpha
  else 0.35 + (|alpha| - Real.pi * 0.5) * (|alpha| - Real.pi * 0.5)

/- pitchF = alpha < alphaMax ? squareSpeed * 0.04 : squareSpeed * 0.02. -/
def pitchF (alpha squareSpeed : ℝ) : ℝ :=
  if alpha < alphaMax then squareSpeed * 0.04 else squareSpeed * 0.02

/- yawF = beta < alphaMax ? squareSpeed * 0.04 : squareSpeed * 0.02. -/
def yawF (beta squareSpeed : ℝ) : ℝ :=
  if beta < alphaMax then squareSpeed * 0.04 else squareSpeed * 0.02

/- trust = throttle pressed and brake not pressed ? 400 * enginePower : 0. -/
def trust (actions : ActionsState) (enginePower : ℝ) : ℝ :=
  if actions.throttle && !actions.brake then 400 * enginePower else 0

/- Control state with only the throttle held. -/
def throttleOnly : ActionsState :=
  ⟨true, false, false, false, false, false, false, false, false⟩

/-- Claim C1: with body-local velocity (0,0,50), throttle pressed, brake not
pressed and engine power 1, the model yields beta = 0, alpha = 0, an
angle-dependent lift coefficient of 0, a drag coefficient of exactly 0.35,
and an applied thrust magnitude of 400 * 1. -/
theorem forward_flight_scenario :
    beta ⟨0, 0, 50⟩ = 0 ∧ alpha ⟨0, 0, 50⟩ = 0 ∧ cL (alpha ⟨0, 0, 50⟩) = 0 ∧
    dragCoef (alpha ⟨0, 0, 50⟩) = 0.35 ∧ trust throttleOnly 1 = 400 * 1 := by
  have hlen : Vec3.length ⟨0, 0, 50⟩ = 50 := by
    show Real.sqrt ((0 : ℝ) * 0 + 0 * 0 + 50 * 50) = 50
    rw [show (0 : ℝ) * 0 + 0 * 0 + 50 * 50 = 50 ^ 2 by norm_num]
    exact Real.sqrt_sq (by norm_num)
  have hbeta : beta ⟨0, 0, 50⟩ = 0 := by
    simp only [beta, hlen]
    rw [if_pos (by norm_num : (50 : ℝ) > 0.5)]
    simp [Real.arcsin_zero]
  have halpha : alpha ⟨0, 0, 50⟩ = 0 := by
    simp only [alpha, hlen]
    rw [if_pos (by norm_num : (50 : ℝ) > 0.5)]
    simp [Real.arcsin_zero]
  refine ⟨hbeta, halpha, ?_, ?_, ?_⟩
  · rw [halpha]
    simp only [cL, alphaMax]
    rw [if_pos (by rw [abs_zero]; norm_num)]
    ring
  · rw [halpha]
    simp only [dragCoef]
    rw [if_pos (by rw [abs_zero]; positivity)]
    norm_num
  · rfl

/-- Claim C6: whenever the body-local velocity has magnitude strictly below
0.5 units per second, the computed sideslip beta and angle of attack alpha
are both exactly 0. -/
theorem low_speed_zero_angles (v : Vec3) (h : v.length < 0.5) :
    beta v = 0 ∧ alpha v = 0 := by
  have hn : ¬ v.length > 0.5 := by
    intro hc
    linarith
  exact ⟨by simp only [beta, if_neg hn], by simp only [alpha, if_neg hn]⟩

/-- Witness for claim C6 at the zero velocity vector. -/
theorem low_speed_zero_angles_witness :
    beta ⟨0, 0, 0⟩ = 0 ∧ alpha ⟨0, 0, 0⟩ = 0 :=
  low_speed_zero_angles ⟨0, 0, 0⟩ (by
    show Real.sqrt ((0 : ℝ) * 0 + 0 * 0 + 0 * 0) < 0.5
    rw [show (0 : ℝ) * 0 + 0 * 0 + 0 * 0 = 0 by norm_num, Real.sqrt_zero]
    norm_num)

/-- Claim C9: for every angle of attack of absolute value at least 0.7
radians, the angle-dependent lift coefficient is exactly 0, while the
baseline coefficient cL0 is 0.5. -/
theorem deep_stall_zero_lift (a : ℝ) (h : 0.7 ≤ |a|) :
    cL a = 0 ∧ cL0 = 0.5 := by
  have habs : ¬ |a| < alphaMax := by
    simp only [alphaMax]
    push_neg
    linarith
  have hb2 : ¬ (a ≤ -alphaMax ∧ -0.7 < a) := by
    simp only [alphaMax]
    rintro ⟨h1, h2⟩
    have ha : |a| = -a := abs_of_nonpos (by linarith)
    linarith
  have hb3 : ¬ (alphaMax ≤ a ∧ a < 0.7) := by
    simp only [alphaMax]
    rintro ⟨h1, h2⟩
    have ha : |a| = a := abs_of_nonneg (by linarith)
    linarith
  exact ⟨by simp only [cL, if_neg habs, if_neg hb2, if_neg hb3], rfl⟩

/-- Witness for claim C9 at the concrete angle 1. -/
theorem deep_stall_zero_lift_witness : cL 1 = 0 ∧ cL0 = 0.5 :=
  deep_stall_zero_lift 1 (by rw [abs_of_nonneg (by norm_num : (0 : ℝ) ≤ 1)]; norm_num)

/- ----- update(): per-tick spring targets for the four axes ----- -/

def partsRotationAmount : ℝ := 0.7

/- Steering block of update(): the derived left group is yawLeft or rollLeft,
   the right group yawRight or rollRight; the target is set only while at
   least one wheel touches the ground, else it is forced to 0. -/
def steeringTarget (actions : ActionsState) (numWheelsOnGround : ℕ) : ℝ :=
  if numWheelsOnGround > 0 then
    if (actions.yawLeft || actions.rollLeft)
        && !actions.yawRight && !actions.rollRight then 0.8
    else if (actions.yawRight || actions.rollRight)
        && !actions.yawLeft && !actions.rollLeft then -0.8
    else 0
  else 0

/- Aileron block of update(). -/
def aileronTarget (actions : ActionsState) : ℝ :=
  if actions.rollLeft && !actions.rollRight then partsRotationAmount
  else if !actions.rollLeft && actions.rollRight then -partsRotationAmount
  else 0

/- Elevator block of update(). -/
def elevatorTarget (actions : ActionsState) : ℝ :=
  if actions.pitchUp && !actions.pitchDown then partsRotationAmount
  else if !actions.pitchUp && actions.pitchDown then -partsRotationAmount
  else 0

/- Rudder block of update(). -/
def rudderTarget (actions : ActionsState) : ℝ :=
  if actions.yawLeft && !actions.yawRight then partsRotationAmount
  else if !actions.yawLeft && actions.yawRight then -partsRotationAmount
  else 0

/- The tie-break rule named by the spec: exactly one side pressed gives the
   signed magnitude, both or neither give 0. -/
def tieBreak (left right : Bool) (magnitude : ℝ) : ℝ :=
  if left && !right then magnitude
  else if !left && right then -magnitude
  else 0

/- Control state with only yawLeft held. -/
def yawLeftOnly : ActionsState :=
  ⟨false, false, false, false, false, true, false, false, false⟩

/-- Counterexample for claim C3: airborne (zero wheels on the ground) with
exactly one of the steering pair pressed, the steering target is 0 and not
the signed deflection magnitude 0.8 that the tie-break rule would demand. -/
theorem steering_tiebreak_airborne_counterexample :
    steeringTarget yawLeftOnly 0 = 0 ∧
    steeringTarget yawLeftOnly 0 ≠ 0.8 ∧ steeringTarget yawLeftOnly 0 ≠ -0.8 := by
  have h : steeringTarget yawLeftOnly 0 = 0 := by
    simp [steeringTarget]
  refine ⟨h, ?_, ?_⟩ <;> rw [h] <;> norm_num

/-- Claim C3 amended: aileron, elevator and rudder derive their spring
targets by the tie-break rule on their opposing action pairs with magnitude
0.7 on every tick; steering applies the same rule to the derived pair
(yawLeft or rollLeft, yawRight or rollRight) with magnitude 0.8 only while
the ground-contact wheel count is positive, and is 0 when that count is 0. -/
theorem axis_targets_tiebreak (actions : ActionsState) (w : ℕ) :
    aileronTarget actions
      = tieBreak actions.rollLeft actions.rollRight partsRotationAmount ∧
    elevatorTarget actions
      = tieBreak actions.pitchUp actions.pitchDown partsRotationAmount ∧
    rudderTarget actions
      = tieBreak actions.yawLeft actions.yawRight partsRotationAmount ∧
    steeringTarget actions w
      = (if w > 0 then
          tieBreak (actions.yawLeft || actions.rollLeft)
            (actions.yawRight || actions.rollRight) 0.8
        else 0) := by
  obtain ⟨t, b, wb, pu, pd, yl, yr, rl, rr⟩ := actions
  refine ⟨rfl, rfl, rfl, ?_⟩
  by_cases hw : w > 0
  · simp only [steeringTarget, tieBreak, if_pos hw]
    cases yl <;> cases yr <;> cases rl <;> cases rr <;> rfl
  · simp only [steeringTarget, tieBreak, if_neg hw]

/-- Claim C7: on a tick with zero wheels on the ground the steering target is
0 for every control state, while with yawLeft pressed and yawRight released
the rudder target is the nonzero deflection magnitude 0.7. -/
theorem airborne_steering_neutral_rudder_active (actions : ActionsState)
    (hyl : actions.yawLeft = true) (hyr : actions.yawRight = false) :
    steeringTarget actions 0 = 0 ∧
    (∀ a2 : ActionsState, steeringTarget a2 0 = 0) ∧
    rudderTarget actions = partsRotationAmount ∧ rudderTarget actions ≠ 0 := by
  refine ⟨by simp [steeringTarget], fun a2 => by simp [steeringTarget], ?_, ?_⟩
  · simp [rudderTarget, hyl, hyr]
  · simp only [rudderTarget, hyl, hyr]
    norm_num [partsRotationAmount]

/-- Witness for claim C7 with only yawLeft held. -/
theorem airborne_steering_witness :
    steeringTarget yawLeftOnly 0 = 0 ∧ rudderTarget yawLeftOnly ≠ 0 :=
  ⟨(airborne_steering_neutral_rudder_active yawLeftOnly rfl rfl).1,
   (airborne_steering_neutral_rudder_active yawLeftOnly rfl rfl).2.2.2⟩

/-- Counterexample for claim C4: at angle of attack -0.5, whose absolute
value exceeds alphaMax = 0.35, the code still selects the full-effectiveness
constant 0.04 for both pitch and yaw, not the reduced constant 0.02. -/
theorem control_force_negative_stall_counterexample :
    alphaMax ≤ |(-0.5 : ℝ)| ∧
    pitchF (-0.5) 100 = 100 * 0.04 ∧ yawF (-0.5) 100 = 100 * 0.04 ∧
    (100 : ℝ) * 0.04 ≠ 100 * 0.02 := by
  have habs : |(-0.5 : ℝ)| = 0.5 := by
    rw [abs_of_nonpos (by norm_num : (-0.5 : ℝ) ≤ 0)]
    norm_num
  refine ⟨by rw [habs]; norm_num [alphaMax], ?_, ?_, by norm_num⟩
  · rw [pitchF, if_pos (by norm_num [alphaMax])]
  · rw [yawF, if_pos (by norm_num [alphaMax])]

/-- Claim C4 amended: the pitch and yaw control forces use the constant 0.04
while the signed angle stays below alphaMax and 0.02 once the signed angle
reaches alphaMax; in particular every angle at or below -alphaMax, although
beyond stall in magnitude, still receives the full constant 0.04. -/
theorem control_force_signed_threshold (a s2 : ℝ) :
    (|a| < alphaMax → pitchF a s2 = s2 * 0.04 ∧ yawF a s2 = s2 * 0.04) ∧
    (alphaMax ≤ a → pitchF a s2 = s2 * 0.02 ∧ yawF a s2 = s2 * 0.02) ∧
    (a ≤ -alphaMax → pitchF a s2 = s2 * 0.04 ∧ yawF a s2 = s2 * 0.04) := by
  refine ⟨fun h => ?_, fun h => ?_, fun h => ?_⟩
  · have ha : a < alphaMax := lt_of_abs_lt h
    exact ⟨by rw [pitchF, if_pos ha], by rw [yawF, if_pos ha]⟩
  · have ha : ¬ a < alphaMax := not_lt.mpr h
    exact ⟨by rw [pitchF, if_neg ha], by rw [yawF, if_neg ha]⟩
  · have ha : a < alphaMax := by
      simp only [alphaMax] at h ⊢
      linarith
    exact ⟨by rw [pitchF, if_pos ha], by rw [yawF, if_pos ha]⟩

/-- Witness for the amended claim C4 at angle -0.5 and squared speed 100. -/
theorem control_force_signed_threshold_witness :
    pitchF (-0.5) 100 = 100 * 0.04 ∧ yawF (-0.5) 100 = 100 * 0.04 :=
  (control_force_signed_threshold (-0.5) 100).2.2 (by norm_num [alphaMax])

/- ----- update(): engine power ramp ----- -/

/- The engine power branch of update(): two sequential conditional writes in
   each branch, exactly as in the source. -/
def enginePowerTick (controlled : Bool) (timeStep enginePower : ℝ) : ℝ :=
  if controlled then
    let p1 := if enginePower < 1 then enginePower + timeStep * 0.4 else enginePower
    if 1 < p1 then 1 else p1
  else
    let p1 := if 0 < enginePower then enginePower - timeStep * 0.12 else enginePower
    if p1 < 0 then 0 else p1

/- Engine power after a sequence of ticks with the given controlled flags. -/
def runEnginePower (flags : List Bool) (timeStep p : ℝ) : ℝ :=
  flags.foldl (fun q c => enginePowerTick c timeStep q) p

/- Engine power after n uncontrolled ticks starting from power 1. -/
def decayPower (timeStep : ℝ) : ℕ → ℝ
  | 0 => 1
  | n + 1 => enginePowerTick false timeStep (decayPower timeStep n)

lemma enginePowerTick_true_eq (timeStep p : ℝ) (hts : 0 ≤ timeStep) (hp1 : p ≤ 1) :
    enginePowerTick true timeStep p = min 1 (p + timeStep * 0.4) := by
  have h4 : 0 ≤ timeStep * 0.4 := mul_nonneg hts (by norm_num)
  show (if 1 < (if p < 1 then p + timeStep * 0.4 else p) then 1
        else (if p < 1 then p + timeStep * 0.4 else p)) = _
  by_cases hlt : p < 1
  · rw [if_pos hlt]
    rcases le_or_lt (p + timeStep * 0.4) 1 with hle | hgt
    · rw [if_neg (not_lt.mpr hle), min_eq_right hle]
    · rw [if_pos hgt, min_eq_left hgt.le]
  · have hp : p = 1 := le_antisymm hp1 (not_lt.mp hlt)
    rw [if_neg hlt, if_neg (not_lt.mpr hp1), hp, min_eq_left (by linarith)]

lemma enginePowerTick_false_eq (timeStep p : ℝ) (hts : 0 ≤ timeStep) (hp0 : 0 ≤ p) :
    enginePowerTick false timeStep p = max 0 (p - timeStep * 0.12) := by
  have h12 : 0 ≤ timeStep * 0.12 := mul_nonneg hts (by norm_num)
  show (if (if 0 < p then p - timeStep * 0.12 else p) < 0 then 0
        else (if 0 < p then p - timeStep * 0.12 else p)) = _
  by_cases hgt : 0 < p
  · rw [if_pos hgt]
    rcases le_or_lt 0 (p - timeStep * 0.12) with hle | hlt
    · rw [if_neg (not_lt.mpr hle), max_eq_right hle]
    · rw [if_pos hlt, max_eq_left hlt.le]
  · have hp : p = 0 := le_antisymm (not_lt.mp hgt) hp0
    rw [if_neg hgt, hp, if_neg (by norm_num : ¬ (0:ℝ) < 0),
      max_eq_left (by linarith : 0 - timeStep * 0.12 ≤ 0)]

lemma enginePowerTick_mem (c : Bool) (timeStep p : ℝ) (hts : 0 ≤ timeStep)
    (hp0 : 0 ≤ p) (hp1 : p ≤ 1) :
    0 ≤ enginePowerTick c timeStep p ∧ enginePowerTick c timeStep p ≤ 1 := by
  have h4 : 0 ≤ timeStep * 0.4 := mul_nonneg hts (by norm_num)
  have h12 : 0 ≤ timeStep * 0.12 := mul_nonneg hts (by norm_num)
  cases c
  · rw [enginePowerTick_false_eq timeStep p hts hp0]
    refine ⟨le_max_left 0 _, ?_⟩
    rw [max_le_iff]
    exact ⟨by norm_num, by linarith⟩
  · rw [enginePowerTick_true_eq timeStep p hts hp1]
    refine ⟨?_, min_le_left 1 _⟩
    rw [le_min_iff]
    exact ⟨by norm_num, by linarith⟩

lemma runEnginePower_mem (flags : List Bool) (timeStep : ℝ) (hts : 0 ≤ timeStep) :
    ∀ p : ℝ, 0 ≤ p → p ≤ 1 →
      0 ≤ runEnginePower flags timeStep p ∧ runEnginePower flags timeStep p ≤ 1 := by
  induction flags with
  | nil => exact fun p hp0 hp1 => ⟨hp0, hp1⟩
  | cons c rest ih =>
      intro p hp0 hp1
      have hstep := enginePowerTick_mem c timeStep p hts hp0 hp1
      exact ih (enginePowerTick c timeStep p) hstep.1 hstep.2

lemma decayPower_closed (timeStep : ℝ) (hts : 0 ≤ timeStep) (n : ℕ) :
    decayPower timeStep n = max 0 (1 - 0.12 * (n * timeStep)) := by
  induction n with
  | zero =>
      simp only [decayPower, Nat.cast_zero, zero_mul, mul_zero, sub_zero]
      rw [max_eq_right (by norm_num : (0:ℝ) ≤ 1)]
  | succ n ih =>
      rw [decayPower, ih]
      have hnn : 0 ≤ max 0 (1 - 0.12 * (n * timeStep)) := le_max_left 0 _
      rw [enginePowerTick_false_eq timeStep _ hts hnn]
      rcases le_or_lt (1 - 0.12 * (n * timeStep)) 0 with hle | hgt
      · rw [max_eq_left hle]
        have h2 : 1 - 0.12 * ((n + 1 : ℕ) * timeStep) ≤ 0 := by
          push_cast
          nlinarith [mul_nonneg hts (by norm_num : (0:ℝ) ≤ 0.12)]
        rw [max_eq_left h2, max_eq_left (by nlinarith [mul_nonneg hts (by norm_num : (0:ℝ) ≤ 0.12)])]
      · rw [max_eq_right hgt.le]
        congr 1
        push_cast
        ring

/-- Claim C5: a controlled tick raises the engine power by 0.4 per second of
time step capped at 1, an uncontrolled tick lowers it by 0.12 per second of
time step floored at 0; every tick sequence keeps a power that starts inside
[0,1] inside [0,1]; and from power 1 the uncontrolled iteration equals
max 0 (1 - 0.12 * elapsed time), is never negative, and hits 0 exactly when
the simulated time reaches 1/0.12 seconds. -/
theorem enginePower_ramp_and_decay (timeStep p : ℝ) (hts : 0 ≤ timeStep)
    (hp0 : 0 ≤ p) (hp1 : p ≤ 1) :
    enginePowerTick true timeStep p = min 1 (p + timeStep * 0.4) ∧
    enginePowerTick false timeStep p = max 0 (p - timeStep * 0.12) ∧
    (∀ flags : List Bool,
      0 ≤ runEnginePower flags timeStep p ∧ runEnginePower flags timeStep p ≤ 1) ∧
    (∀ n : ℕ, decayPower timeStep n = max 0 (1 - 0.12 * (n * timeStep))) ∧
    (∀ n : ℕ, 0 ≤ decayPower timeStep n) ∧
    (∀ n : ℕ, (decayPower timeStep n = 0 ↔ 1 / 0.12 ≤ n * timeStep)) := by
  refine ⟨enginePowerTick_true_eq timeStep p hts hp1,
    enginePowerTick_false_eq timeStep p hts hp0,
    fun flags => runEnginePower_mem flags timeStep hts p hp0 hp1,
    decayPower_closed timeStep hts, fun n => ?_, fun n => ?_⟩
  · rw [decayPower_closed timeStep hts n]
    exact le_max_left 0 _
  · rw [decayPower_closed timeStep hts n]
    constructor
    · intro h
      have hle : 1 - 0.12 * (n * timeStep) ≤ 0 := by
        by_contra hc
        push_neg at hc
        rw [max_eq_right hc.le] at h
        linarith
      rw [div_le_iff₀ (by norm_num : (0:ℝ) < 0.12)]
      linarith
    · intro h
      rw [div_le_iff₀ (by norm_num : (0:ℝ) < 0.12)] at h
      exact max_eq_left (by linarith)

/-- Witness for claim C5 at time step 1 and power 1: one controlled tick
stays at 1, and nine uncontrolled ticks from power 1 reach 0. -/
theorem enginePower_ramp_and_decay_witness :
    enginePowerTick true 1 1 = min 1 (1 + 1 * 0.4) ∧
    decayPower 1 9 = max 0 (1 - 0.12 * (9 * 1)) ∧ decayPower 1 9 = 0 :=
  ⟨(enginePower_ramp_and_decay 1 1 (by norm_num) (by norm_num) (by norm_num)).1,
   (enginePower_ramp_and_decay 1 1 (by norm_num) (by norm_num) (by norm_num)).2.2.2.1 9,
   ((enginePower_ramp_and_decay 1 1 (by norm_num) (by norm_num)
      (by norm_num)).2.2.2.2.2 9).mpr (by norm_num)⟩

/-- Claim C10: the lift coefficient takes the value -4.3 * 0.35 + 3.1 = 1.595
at alphaMax = 0.35 and the value -1.595 at -0.35, while along the linear
branch it tends to 4.3 * 0.35 = 1.505 as the angle approaches 0.35 from
below, a jump of 0.09 at stall onset. -/
theorem stall_onset_discontinuity :
    cL alphaMax = 1.595 ∧ cL (-alphaMax) = -1.595 ∧
    Filter.Tendsto cL (nhdsWithin 0.35 (Set.Iio 0.35)) (nhds 1.505) ∧
    (1.595 : ℝ) - 1.505 = 0.09 := by
  have habs1 : |(0.35 : ℝ)| = 0.35 := abs_of_nonneg (by norm_num)
  have habs2 : |(-0.35 : ℝ)| = 0.35 := by
    rw [abs_of_nonpos (by norm_num : (-0.35 : ℝ) ≤ 0)]
    norm_num
  refine ⟨?_, ?_, ?_, by norm_num⟩
  · simp only [cL, alphaMax, habs1]
    norm_num
  · simp only [cL, alphaMax, habs2]
    norm_num
  · have hmem : Set.Ioo (0 : ℝ) 0.35 ∈ nhdsWithin 0.35 (Set.Iio 0.35) :=
      Ioo_mem_nhdsWithin_Iio (by constructor <;> norm_num)
    have heq : Set.EqOn cL (fun x : ℝ => 4.3 * x) (Set.Ioo (0 : ℝ) 0.35) := by
      intro x hx
      have hxabs : |x| < alphaMax := by
        rw [abs_of_nonneg hx.1.le]
        simpa [alphaMax] using hx.2
      simp only [cL, if_pos hxabs]
    have htend : Filter.Tendsto (fun x : ℝ => 4.3 * x)
        (nhdsWithin 0.35 (Set.Iio 0.35)) (nhds 1.505) := by
      have hc : Filter.Tendsto (fun x : ℝ => 4.3 * x) (nhds 0.35)
          (nhds (4.3 * 0.35)) := (continuous_const.mul continuous_id).tendsto 0.35
      rw [show (4.3 : ℝ) * 0.35 = 1.505 by norm_num] at hc
      exact hc.mono_left nhdsWithin_le_nhds
    refine htend.congr' ?_
    filter_upwards [hmem] with x hx
    exact (heq hx).symm

/- ----- physicsPreStep as a whole ----- -/

/- Kinematic snapshot of the rigid body read by physicsPreStep. -/
structure BodyState where
  velocity : Vec3
  quaternion : Quat

/- The airplane fields visible to physicsPreStep and update. -/
structure AirplaneState where
  actions : ActionsState
  numWheelsOnGround : ℕ
  enginePower : ℝ
  lastDrag : ℝ
  steeringPosition : ℝ
  aileronPosition : ℝ
  elevatorPosition : ℝ
  rudderPosition : ℝ

/- A force vector together with its body-local application point, one entry
   per applyLocalForce call. -/
structure ForceContribution where
  force : Vec3
  point : Vec3

/- The canonical physicsPreStep: reads the body kinematics and the airplane
   fields, emits the applyLocalForce calls in source order, and returns the
   airplane state it was given (the source writes no field of the plane). -/
def physicsPreStep (body : BodyState) (plane : AirplaneState) :
    AirplaneState × List ForceContribution :=
  let mid : Vec3 := ⟨0, 0, 0⟩
  let velocity := body.quaternion.inverse.vmult body.velocity
  let currentSpeed := velocity.length
  let squareSpeed := currentSpeed * currentSpeed
  let height : ℝ := 0
  let dynP := dynamicPressure squareSpeed height
  let b := beta velocity
  let a := alpha velocity
  let liftCoef := cL a
  let dCoef := dragCoef a
  let flowDirection := velocity.normalize.negate
  let aeroCenterPos : Vec3 := ⟨0, 0, -0.1⟩
  let pressCenterPos : Vec3 :=
    ⟨0, 0, if plane.numWheelsOnGround > 0 then 0.2 else 0.05⟩
  let pF := pitchF a squareSpeed
  let yF := yawF b squareSpeed
  let trustMag := trust plane.actions plane.enginePower
  let trustVec : Vec3 := ⟨0, 0, trustMag⟩
  let drag := dCoef * dynP * wingS
  let dragVec := flowDirection.scale drag
  let lift0 := cL0 * dynP * wingS
  let lift0Vec : Vec3 := ⟨0, lift0 * Real.cos a, lift0 * Real.sin a⟩
  let lift := liftCoef * dynP * wingS
  let liftVec : Vec3 := ⟨0, lift * Real.cos a, lift * Real.sin a⟩
  let side := b * dynP
  let sideVec : Vec3 := ⟨-side, 0, 0⟩
  let forces : List ForceContribution :=
    (if plane.actions.pitchUp then [⟨⟨0, -pF, 0⟩, ⟨0, 0, -1⟩⟩] else [])
    ++ (if plane.actions.pitchDown then [⟨⟨0, pF, 0⟩, ⟨0, 0, -1⟩⟩] else [])
    ++ (if plane.actions.yawLeft then [⟨⟨-yF, 0, 0⟩, ⟨0, 0, -1⟩⟩] else [])
    ++ (if plane.actions.yawRight then [⟨⟨yF, 0, 0⟩, ⟨0, 0, -1⟩⟩] else [])
    ++ (if plane.actions.rollLeft then
          [⟨⟨0, 3 * -currentSpeed, 0⟩, ⟨1, 0, 0⟩⟩,
           ⟨⟨0, 3 * currentSpeed, 0⟩, ⟨-1, 0, 0⟩⟩] else [])
    ++ (if plane.actions.rollRight then
          [⟨⟨0, 3 * currentSpeed, 0⟩, ⟨1, 0, 0⟩⟩,
           ⟨⟨0, 3 * -currentSpeed, 0⟩, ⟨-1, 0, 0⟩⟩] else [])
    ++ [⟨trustVec, mid⟩, ⟨dragVec, aeroCenterPos⟩, ⟨lift0Vec, pressCenterPos⟩,
        ⟨liftVec, aeroCenterPos⟩, ⟨sideVec, aeroCenterPos⟩]
  (plane, forces)

/-- Claim C8: physicsPreStep is pure. It leaves every airplane field
unchanged, and two invocations on the same body kinematics whose airplane
states agree on engine power, control actions and ground-contact wheel
count emit exactly the same force list, whatever the remaining fields
(lastDrag, the spring positions) hold. -/
theorem physicsPreStep_pure (body : BodyState) (p1 p2 : AirplaneState)
    (hE : p1.enginePower = p2.enginePower) (hA : p1.actions = p2.actions)
    (hW : p1.numWheelsOnGround = p2.numWheelsOnGround) :
    (physicsPreStep body p1).2 = (physicsPreStep body p2).2 ∧
    (physicsPreStep body p1).1 = p1 ∧ (physicsPreStep body p2).1 = p2 := by
  refine ⟨?_, rfl, rfl⟩
  simp only [physicsPreStep, hE, hA, hW]

/- Concrete states for the purity witness: the two airplane states agree on
   engine power, actions and wheel count but differ on lastDrag and every
   spring position. -/
def body0 : BodyState := ⟨⟨0, 0, 50⟩, ⟨0, 0, 0, 1⟩⟩
def plane0 : AirplaneState := ⟨yawLeftOnly, 0, 1, 0, 0, 0, 0, 0⟩
def plane1 : AirplaneState := ⟨yawLeftOnly, 0, 1, 7, 0.3, 0.1, 0.2, 0.4⟩

/-- Witness for claim C8 on concrete states differing only in untouched
fields. -/
theorem physicsPreStep_pure_witness :
    (physicsPreStep body0 plane0).2 = (physicsPreStep body0 plane1).2 ∧
    (physicsPreStep body0 plane0).1 = plane0 ∧
    (physicsPreStep body0 plane1).1 = plane1 :=
  physicsPreStep_pure body0 plane0 plane1 rfl rfl rfl

/- ----- the asin arguments of beta and alpha ----- -/

lemma abs_quot_le_one {a b : ℝ} (h : |a| ≤ b) : |a / b| ≤ 1 := by
  have hb : 0 ≤ b := le_trans (abs_nonneg a) h
  rcases eq_or_lt_of_le hb with h0 | h0
  · rw [← h0, div_zero, abs_zero]
    norm_num
  · rw [abs_div, abs_of_pos h0]
    exact (div_le_one h0).mpr h

lemma abs_x_le_length (v : Vec3) : |v.x| ≤ v.length := by
  rw [Vec3.length, ← Real.sqrt_mul_self_eq_abs]
  exact Real.sqrt_le_sqrt (by nlinarith [mul_self_nonneg v.y, mul_self_nonneg v.z])

lemma abs_y_le_length (v : Vec3) : |v.y| ≤ v.length := by
  rw [Vec3.length, ← Real.sqrt_mul_self_eq_abs]
  exact Real.sqrt_le_sqrt (by nlinarith [mul_self_nonneg v.x, mul_self_nonneg v.z])

/-- Claim C2 context: in exact real arithmetic the raw, unclamped arguments
the code hands to asin, namely velocity.x / velocity.length for beta and
velocity.y / (velocity.length * cos beta) for alpha, always lie inside
[-1,1]; the bound is attained, so any downward rounding of the denominator
in floating point pushes the quotient past 1, which is what the clamp
required by the spec and absent from the code would absorb. -/
theorem asin_arguments_inbounds_reals (v : Vec3) :
    |v.x / v.length| ≤ 1 ∧ |v.y / (v.length * Real.cos (beta v))| ≤ 1 := by
  refine ⟨abs_quot_le_one (abs_x_le_length v), ?_⟩
  by_cases hguard : v.length > 0.5
  · have hs : (0 : ℝ) < v.length := lt_trans (by norm_num) hguard
    have hcos : Real.cos (beta v) = Real.sqrt (1 - (v.x / v.length) ^ 2) := by
      rw [beta, if_pos hguard, Real.cos_arcsin]
    have hsq : v.length ^ 2 = v.x * v.x + v.y * v.y + v.z * v.z :=
      Real.sq_sqrt (add_nonneg (add_nonneg (mul_self_nonneg _) (mul_self_nonneg _))
        (mul_self_nonneg _))
    have key : Real.sqrt (v.length ^ 2 * (1 - (v.x / v.length) ^ 2))
        = v.length * Real.sqrt (1 - (v.x / v.length) ^ 2) := by
      rw [Real.sqrt_mul (sq_nonneg _), Real.sqrt_sq hs.le]
    have hden : v.length * Real.cos (beta v)
        = Real.sqrt (v.y * v.y + v.z * v.z) := by
      rw [hcos, ← key]
      congr 1
      have expand : v.length ^ 2 * (1 - (v.x / v.length) ^ 2)
          = v.length ^ 2 - v.x ^ 2 := by
        have hne : v.length ≠ 0 := ne_of_gt hs
        field_simp
      rw [expand]
      linear_combination hsq
    rw [hden]
    refine abs_quot_le_one ?_
    rw [← Real.sqrt_mul_self_eq_abs]
    exact Real.sqrt_le_sqrt (by nlinarith [mul_self_nonneg v.z])
  · rw [beta, if_neg hguard, Real.cos_zero, mul_one]
    exact abs_quot_le_one (abs_y_le_length v)

end
